import Mathlib

/-!
# Smart-attendance backend: shallow embedding and verification

This file embeds the core logic of the attendance server (`src/server.js`,
second and final variant, together with the Mongoose schema in
`models/Attendance.js`) and proves the specification's claims about it.

The HTTP layer and MongoDB are modelled away as in the spec: the store is a
pair of lists (users, attendance records), `findOne` is `List.find?` (first
match), `save` of a found document replaces that document in place,
`updateMany` maps over all matching documents, and inserting a new document
appends it.  Dates (`YYYY-MM-DD`) and times of day (`HH:mm:ss`) stay strings,
exactly as stored by the code; the only order ever needed on them is the
lexicographic (code-point) order, defined here from scratch.
-/

namespace SmartAttendance

/-- JavaScript `String.prototype.padStart(n, c)`: left-pad with `c`
up to length `n` (no-op when already at least that long). -/
def padStart (s : String) (n : Nat) (c : Char) : String :=
  String.mk (List.replicate (n - s.length) c) ++ s

/-- JavaScript `String.prototype.toUpperCase()`: upper-case character by
character (stated over `data` so that it evaluates by kernel reduction). -/
def toUpperStr (s : String) : String :=
  String.mk (s.data.map Char.toUpper)

/-- JavaScript `String.prototype.trim()`: drop leading and trailing
whitespace (stated over `data` so that it evaluates by kernel reduction). -/
def trimStr (s : String) : String :=
  String.mk (((s.data.dropWhile Char.isWhitespace).reverse.dropWhile Char.isWhitespace).reverse)

/-- The identifier normalization applied by `POST /attendance` (and, after a
trim, by `POST /register`): `cardUID.toUpperCase().padStart(8, '0')`. -/
def normalizeUID (s : String) : String :=
  padStart (toUpperStr s) 8 '0'

/-- Document of the `User` collection: `{ name, cardUID }` with `cardUID`
stored already normalized by `POST /register`. -/
structure User where
  name : String
  cardUID : String
deriving DecidableEq

/-- Document of the `Attendance` collection (`models/Attendance.js`):
`cardUID`, optional denormalized `name`, `date` (`YYYY-MM-DD`), `inTime`,
and `outTime` which is absent until checkout. -/
structure Attendance where
  cardUID : String
  name : String
  date : String
  inTime : String
  outTime : Option String
deriving DecidableEq

/-- The persistent store: the two MongoDB collections as lists of documents
in insertion order. -/
structure Store where
  users : List User
  attendance : List Attendance
deriving DecidableEq

/-- The empty store (fresh database). -/
def emptyStore : Store := { users := [], attendance := [] }

/-- `User.findOne({ cardUID })`. -/
def findUser (st : Store) (k : String) : Option User :=
  st.users.find? (fun u => u.cardUID == k)

/-- The `{ cardUID, date }` equality query on attendance documents. -/
def keyMatch (k d : String) (r : Attendance) : Bool :=
  r.cardUID == k && r.date == d

/-- `Attendance.findOne({ cardUID, date })`. -/
def findRecord (st : Store) (k d : String) : Option Attendance :=
  st.attendance.find? (keyMatch k d)

/-- `record.outTime = timeStr; record.save()` after a `findOne`: update the
first document matching `{ cardUID, date }` in place, setting its `outTime`. -/
def markOut (l : List Attendance) (k d t : String) : List Attendance :=
  match l with
  | [] => []
  | r :: rest =>
    if keyMatch k d r then { r with outTime := some t } :: rest
    else r :: markOut rest k d t

/-- Outcome of `POST /attendance` as observable to the caller. -/
inductive ScanResult where
  /-- `{ status: 'IN', ... }` with the newly created record. -/
  | statusIn (record : Attendance)
  /-- `{ status: 'OUT', ... }` with the updated record. -/
  | statusOut (record : Attendance)
  /-- 400 `{ status: 'ALREADY_OUT' }`. -/
  | alreadyOut
  /-- 404 `Card not registered`. -/
  | unknownCard
deriving DecidableEq

/-- `POST /attendance` (final variant, `src/server.js` lines 260-291):
normalize the incoming `cardUID`, look up the user, then either create the
day's record (IN), set its `outTime` (OUT), or reject (ALREADY_OUT).
`dateStr`/`timeStr` stand for `moment().tz('Asia/Kolkata')`'s formatted
current date and time of day. -/
def recordScan (rawUID dateStr timeStr : String) (st : Store) : ScanResult × Store :=
  let cardUID := normalizeUID rawUID
  match findUser st cardUID with
  | none => (.unknownCard, st)
  | some user =>
    match findRecord st cardUID dateStr with
    | none =>
      let record : Attendance :=
        { cardUID := cardUID, name := user.name, date := dateStr
          inTime := timeStr, outTime := none }
      (.statusIn record, { st with attendance := st.attendance ++ [record] })
    | some record =>
      match record.outTime with
      | none =>
        (.statusOut { record with outTime := some timeStr },
         { st with attendance := markOut st.attendance cardUID dateStr timeStr })
      | some _ => (.alreadyOut, st)

/-- Outcome of `POST /register` as observable to the caller: the two 400
validation messages, the 400 duplicate-card rejection, or success. -/
inductive RegisterResult where
  | registered (user : User)
  /-- 400 with one of the two validation messages. -/
  | validationError (message : String)
  /-- 400 `This Card UID is already registered.`. -/
  | duplicateIdentifier
deriving DecidableEq

/-- `POST /register` (final variant, `src/server.js` lines 232-257): trim
both fields, validate name length and raw identifier length, normalize,
reject duplicates, otherwise persist the new user. -/
def register (rawName rawUID : String) (st : Store) : RegisterResult × Store :=
  let name := trimStr rawName
  if name.length < 3 then
    (.validationError "Name must be at least 3 letters.", st)
  else
    let trimmed := trimStr rawUID
    if trimmed.length < 5 || 16 < trimmed.length then
      (.validationError "Card UID must be between 5-16 characters.", st)
    else
      let cardUID := normalizeUID trimmed
      match findUser st cardUID with
      | some _ => (.duplicateIdentifier, st)
      | none =>
        let user : User := { name := name, cardUID := cardUID }
        (.registered user, { st with users := st.users ++ [user] })

/-- The `$set` of the 23:59 cron sweep applied to one document: a document
matching `{ date: today, outTime: { $exists: false } }` gets
`outTime = '23:59:59'`; any other document is untouched. -/
def sweepDoc (today : String) (r : Attendance) : Attendance :=
  if r.date == today && r.outTime == none then { r with outTime := some "23:59:59" }
  else r

/-- The 23:59 cron sweep (`src/server.js` lines 321-332):
`Attendance.updateMany({ date: today, outTime: { $exists: false } },
{ $set: { outTime: '23:59:59' } })`.  Returns `result.modifiedCount`
together with the updated store. -/
def sweepAttendance (today : String) (st : Store) : Nat × Store :=
  let modified := (st.attendance.filter
    (fun r => r.date == today && r.outTime == none)).length
  (modified, { st with attendance := st.attendance.map (sweepDoc today) })

/-- `getLastNDates(n)` (`src/server.js` lines 182-188): the dates of today
and the previous `n - 1` days, newest first.  `fmt i` stands for
`moment().tz('Asia/Kolkata').subtract(i, 'days').format('YYYY-MM-DD')`. -/
def getLastNDates (n : Nat) (fmt : Nat → String) : List String :=
  (List.range n).map fmt

/-- The per-user `totalWorkdays` computed by the home page (`src/server.js`
lines 202-210): fetch the records whose date is in the window
(`date: { $in: last6Dates }`), keep the user's, and take the number of
distinct dates (`new Set(...).size`). -/
def totalWorkdays (recs : List Attendance) (uid : String) (window : List String) : Nat :=
  let attendanceWindow := recs.filter (fun r => window.contains r.date)
  (((attendanceWindow.filter (fun r => r.cardUID == uid)).map (fun r => r.date)).dedup).length

/-- One operation against the store, for reasoning about arbitrary
interleavings of the three mutating entry points. -/
inductive Op where
  | registerUser (rawName rawUID : String)
  | scanCard (rawUID dateStr timeStr : String)
  | sweepRun (dateStr : String)
deriving DecidableEq

/-- Apply one operation, keeping only the store. -/
def applyOp (st : Store) : Op → Store
  | .registerUser n u => (register n u st).2
  | .scanCard u d t => (recordScan u d t st).2
  | .sweepRun d => (sweepAttendance d st).2

/-- Run a whole operation sequence from the empty store. -/
def runOps (ops : List Op) : Store :=
  ops.foldl applyOp emptyStore

/-- The natural key of an attendance document. -/
def keyOf (r : Attendance) : String × String := (r.cardUID, r.date)

/-- Number of attendance documents with a given natural key. -/
def countKey (st : Store) (k d : String) : Nat :=
  (st.attendance.filter (keyMatch k d)).length

example : normalizeUID "ab12" = "0000AB12" := by decide
example : normalizeUID "" = "00000000" := by decide
example : normalizeUID "AB123 " = "00AB123 " := by decide

/-! ## List helper lemmas -/

theorem find?_append_none {α : Type} (p : α → Bool) (l₁ l₂ : List α)
    (h : l₁.find? p = none) : (l₁ ++ l₂).find? p = l₂.find? p := by
  simp [List.find?_append, h]

theorem map_eq_self_of_mem {α : Type} (f : α → α) (l : List α)
    (h : ∀ x ∈ l, f x = x) : l.map f = l := by
  induction l with
  | nil => rfl
  | cons a l ih =>
    simp only [List.map_cons, h a (by simp)]
    rw [ih (fun x hx => h x (by simp [hx]))]

/-! ## Facts about `markOut` -/

@[simp]
theorem keyMatch_setOut (k d t : String) (r : Attendance) :
    keyMatch k d { r with outTime := some t } = keyMatch k d r := rfl

theorem markOut_map_keyOf (l : List Attendance) (k d t : String) :
    (markOut l k d t).map keyOf = l.map keyOf := by
  induction l with
  | nil => rfl
  | cons r rest ih =>
    by_cases h : keyMatch k d r = true
    · simp [markOut, h, keyOf]
    · simp [markOut, h, ih]

theorem markOut_filter_key_length (l : List Attendance) (k d t k2 d2 : String) :
    ((markOut l k d t).filter (keyMatch k2 d2)).length
      = (l.filter (keyMatch k2 d2)).length := by
  induction l with
  | nil => rfl
  | cons r rest ih =>
    by_cases h : keyMatch k d r = true
    · by_cases h2 : keyMatch k2 d2 r = true
      · simp [markOut, h, List.filter_cons, h2, keyMatch_setOut]
      · simp [markOut, h, List.filter_cons, h2, keyMatch_setOut]
    · by_cases h2 : keyMatch k2 d2 r = true
      · simp [markOut, h, List.filter_cons, h2, ih]
      · simp [markOut, h, List.filter_cons, h2, ih]

theorem markOut_length (l : List Attendance) (k d t : String) :
    (markOut l k d t).length = l.length := by
  induction l with
  | nil => rfl
  | cons r rest ih =>
    by_cases h : keyMatch k d r = true
    · simp [markOut, h]
    · simp [markOut, h, ih]

theorem find?_markOut (l : List Attendance) (k d t : String) (r0 : Attendance)
    (h : l.find? (keyMatch k d) = some r0) :
    (markOut l k d t).find? (keyMatch k d)
      = some { r0 with outTime := some t } := by
  induction l with
  | nil => simp at h
  | cons r rest ih =>
    by_cases hp : keyMatch k d r = true
    · rw [List.find?_cons_of_pos (p := keyMatch k d) _ hp] at h
      cases h
      rw [markOut, if_pos hp]
      exact List.find?_cons_of_pos _ hp
    · rw [List.find?_cons_of_neg (p := keyMatch k d) _ hp] at h
      simp only [markOut, hp]
      rw [if_neg (by simp_all), List.find?_cons_of_neg (p := keyMatch k d) _ hp]
      exact ih h

theorem mem_markOut_cases (l : List Attendance) (k d t : String) (x : Attendance)
    (hx : x ∈ markOut l k d t) :
    x ∈ l ∨ ∃ r0, l.find? (keyMatch k d) = some r0 ∧
      x = { r0 with outTime := some t } := by
  induction l with
  | nil => simp [markOut] at hx
  | cons r rest ih =>
    by_cases hp : keyMatch k d r = true
    · rw [markOut, if_pos hp] at hx
      rcases List.mem_cons.mp hx with h | h
      · exact Or.inr ⟨r, List.find?_cons_of_pos (p := keyMatch k d) _ hp, h⟩
      · exact Or.inl (List.mem_cons_of_mem _ h)
    · rw [markOut, if_neg hp] at hx
      rcases List.mem_cons.mp hx with h | h
      · exact Or.inl (h ▸ List.mem_cons_self _ _)
      · rcases ih h with h2 | ⟨r0, h0, hx0⟩
        · exact Or.inl (List.mem_cons_of_mem _ h2)
        · exact Or.inr ⟨r0, by rw [List.find?_cons_of_neg (p := keyMatch k d) _ hp]; exact h0, hx0⟩

theorem mem_markOut_of_closed (l : List Attendance) (k d t : String)
    (x : Attendance) (t0 : String) (hx : x ∈ l) (hout : x.outTime = some t0)
    (r0 : Attendance)
    (h0 : l.find? (keyMatch k d) = some r0)
    (h0out : r0.outTime = none) : x ∈ markOut l k d t := by
  induction l with
  | nil => simp at hx
  | cons r rest ih =>
    by_cases hp : keyMatch k d r = true
    · rw [List.find?_cons_of_pos (p := keyMatch k d) _ hp] at h0
      cases h0
      rw [markOut, if_pos hp]
      rcases List.mem_cons.mp hx with h | h
      · exact absurd (h ▸ hout) (by simp [h0out])
      · exact List.mem_cons_of_mem _ h
    · rw [List.find?_cons_of_neg (p := keyMatch k d) _ hp] at h0
      rw [markOut, if_neg hp]
      rcases List.mem_cons.mp hx with h | h
      · exact h ▸ List.mem_cons_self _ _
      · exact List.mem_cons_of_mem _ (ih h h0)

/-! ## Facts about the sweep's per-document update -/

theorem sweepDoc_keyOf (today : String) (r : Attendance) :
    keyOf (sweepDoc today r) = keyOf r := by
  unfold sweepDoc
  split <;> rfl

theorem sweepDoc_closed (today : String) (r : Attendance) (t : String)
    (h : r.outTime = some t) : sweepDoc today r = r := by
  unfold sweepDoc
  rw [if_neg (by simp [h])]

/-! ## Claim C1: the scan state machine -/

/-- A registered user and an empty ledger, used to instantiate the
hypothetical theorems on concrete data. -/
def demoStore : Store :=
  { users := [{ name := "Asha", cardUID := "0000AB12" }], attendance := [] }

/-- C1: for a scan whose normalized identifier resolves to a registered
user: with no record for (user, date) a record is created with
`inTime = timeOfDay` and no `outTime`, and the status is IN; with an open
record, `outTime` is set to `timeOfDay` and the status is OUT; with a
closed record nothing is mutated and the status is ALREADY_OUT. -/
theorem recordScan_transition (raw d t : String) (st : Store) (user : User)
    (hu : findUser st (normalizeUID raw) = some user) :
    (findRecord st (normalizeUID raw) d = none →
      recordScan raw d t st =
        (.statusIn { cardUID := normalizeUID raw, name := user.name, date := d,
                     inTime := t, outTime := none },
         { st with attendance := st.attendance ++
             [{ cardUID := normalizeUID raw, name := user.name, date := d,
                inTime := t, outTime := none }] })) ∧
    (∀ r, findRecord st (normalizeUID raw) d = some r → r.outTime = none →
      recordScan raw d t st =
        (.statusOut { r with outTime := some t },
         { st with attendance := markOut st.attendance (normalizeUID raw) d t })) ∧
    (∀ r t0, findRecord st (normalizeUID raw) d = some r → r.outTime = some t0 →
      recordScan raw d t st = (.alreadyOut, st)) := by
  refine ⟨?_, ?_, ?_⟩
  · intro h
    simp [recordScan, hu, h]
  · intro r h hout
    simp [recordScan, hu, h, hout]
  · intro r t0 h hout
    simp [recordScan, hu, h, hout]

/-- C1 witness: the three hypotheses discharged on concrete data (the
spec's own scenario for the IN branch). -/
theorem recordScan_transition_witness :
    recordScan "ab12" "2024-03-01" "09:00:00" demoStore =
      (.statusIn { cardUID := normalizeUID "ab12", name := "Asha", date := "2024-03-01",
                   inTime := "09:00:00", outTime := none },
       { demoStore with attendance := demoStore.attendance ++
           [{ cardUID := normalizeUID "ab12", name := "Asha", date := "2024-03-01",
              inTime := "09:00:00", outTime := none }] }) :=
  (recordScan_transition "ab12" "2024-03-01" "09:00:00" demoStore
      { name := "Asha", cardUID := "0000AB12" } (by decide)).1 (by decide)

/-! ## Claim C4: unknown card -/

/-- C4: a scan whose normalized identifier matches no registered user
returns the 404 rejection and leaves the store entirely unchanged. -/
theorem recordScan_unknownCard (raw d t : String) (st : Store)
    (h : findUser st (normalizeUID raw) = none) :
    recordScan raw d t st = (.unknownCard, st) := by
  simp [recordScan, h]

theorem recordScan_unknownCard_witness :
    recordScan "ab12" "2024-03-01" "09:00:00" emptyStore = (.unknownCard, emptyStore) :=
  recordScan_unknownCard "ab12" "2024-03-01" "09:00:00" emptyStore (by decide)

/-! ## Claim C9: empty identifier on the scan path -/

/-- C9 counterexample: the scan path has no emptiness check at all.  The
empty string (empty after trimming) is not rejected with a validation
error: it normalizes to `"00000000"`, and if a user happens to hold that
key the scan succeeds and creates a DayRecord — the claimed
`InvalidIdentifier` failure does not exist and a record is created. -/
theorem emptyIdentifier_counterexample :
    trimStr "" = "" ∧
    recordScan "" "2024-03-01" "09:00:00"
        { users := [{ name := "Zero", cardUID := "00000000" }], attendance := [] }
      = (.statusIn { cardUID := "00000000", name := "Zero", date := "2024-03-01",
                     inTime := "09:00:00", outTime := none },
         { users := [{ name := "Zero", cardUID := "00000000" }],
           attendance := [{ cardUID := "00000000", name := "Zero", date := "2024-03-01",
                            inTime := "09:00:00", outTime := none }] }) := by
  constructor
  · decide
  · decide

/-- C9 amended: an empty raw identifier is not specially rejected; it is
normalized to `"00000000"` like any other scan.  When no user is registered
under that key the scan reports the 404 unknown-card rejection and the
store is unchanged (so still no record is created) — but via `UnknownCard`,
not the spec's `InvalidIdentifier`. -/
theorem emptyIdentifier_amended (d t : String) (st : Store)
    (h : findUser st "00000000" = none) :
    normalizeUID "" = "00000000" ∧
    recordScan "" d t st = (.unknownCard, st) := by
  have hn : normalizeUID "" = "00000000" := by decide
  exact ⟨hn, by simp [recordScan, hn, h]⟩

theorem emptyIdentifier_amended_witness :
    normalizeUID "" = "00000000" ∧
    recordScan "" "2024-03-01" "09:00:00" emptyStore = (.unknownCard, emptyStore) :=
  emptyIdentifier_amended "2024-03-01" "09:00:00" emptyStore (by decide)

/-! ## Claim C10: registration trims, the scan does not -/

/-- C10: `POST /register` trims the raw identifier before normalizing while
`POST /attendance` normalizes the raw body value directly, so a registered
card read back with stray whitespace resolves to a different key and is
rejected as unknown, while the exact registered string still resolves. -/
theorem register_trims_scan_does_not :
    register "Asha" "AB123" emptyStore
      = (.registered { name := "Asha", cardUID := "000AB123" },
         { users := [{ name := "Asha", cardUID := "000AB123" }], attendance := [] }) ∧
    normalizeUID "AB123" = "000AB123" ∧
    normalizeUID "AB123 " ≠ "000AB123" ∧
    normalizeUID " AB123" ≠ "000AB123" ∧
    recordScan "AB123 " "2024-03-01" "09:00:00"
        { users := [{ name := "Asha", cardUID := "000AB123" }], attendance := [] }
      = (.unknownCard,
         { users := [{ name := "Asha", cardUID := "000AB123" }], attendance := [] }) ∧
    recordScan " AB123" "2024-03-01" "09:00:00"
        { users := [{ name := "Asha", cardUID := "000AB123" }], attendance := [] }
      = (.unknownCard,
         { users := [{ name := "Asha", cardUID := "000AB123" }], attendance := [] }) ∧
    (recordScan "AB123" "2024-03-01" "09:00:00"
        { users := [{ name := "Asha", cardUID := "000AB123" }], attendance := [] }).1
      = .statusIn { cardUID := "000AB123", name := "Asha", date := "2024-03-01",
                    inTime := "09:00:00", outTime := none } := by
  refine ⟨by decide, by decide, by decide, by decide, by decide, by decide, by decide⟩

/-! ## Claim C6: registration validation -/

/-- C6: `POST /register` rejects a trimmed name shorter than 3 and a
trimmed identifier of length outside `[5, 16]` with a validation error,
rejects an already-taken normalized key as a duplicate, and otherwise
creates exactly the new user; in every failure case the store is
unchanged. -/
theorem register_validation (rawName rawUID : String) (st : Store) :
    ((trimStr rawName).length < 3 →
      register rawName rawUID st
        = (.validationError "Name must be at least 3 letters.", st)) ∧
    (3 ≤ (trimStr rawName).length →
      ((trimStr rawUID).length < 5 ∨ 16 < (trimStr rawUID).length) →
      register rawName rawUID st
        = (.validationError "Card UID must be between 5-16 characters.", st)) ∧
    (3 ≤ (trimStr rawName).length →
      5 ≤ (trimStr rawUID).length → (trimStr rawUID).length ≤ 16 →
      (∀ u, findUser st (normalizeUID (trimStr rawUID)) = some u →
        register rawName rawUID st = (.duplicateIdentifier, st)) ∧
      (findUser st (normalizeUID (trimStr rawUID)) = none →
        register rawName rawUID st
          = (.registered { name := trimStr rawName,
                           cardUID := normalizeUID (trimStr rawUID) },
             { st with users := st.users ++
                 [{ name := trimStr rawName,
                    cardUID := normalizeUID (trimStr rawUID) }] }))) := by
  refine ⟨?_, ?_, ?_⟩
  · intro h
    simp [register, h]
  · intro hn hu
    rw [register, if_neg (by omega), if_pos (by rcases hu with h | h <;> simp <;> omega)]
  · intro hn hu1 hu2
    constructor
    · intro u hdup
      rw [register, if_neg (by omega), if_neg (by simp; omega)]
      simp [hdup]
    · intro hnone
      rw [register, if_neg (by omega), if_neg (by simp; omega)]
      simp [hnone]

/-- C6 witness: the spec's own scenarios — name of length 2 and identifier
of length 3 are each rejected with a validation error and no user is
created; a valid pair is registered. -/
theorem register_validation_witness :
    register "Al" "12345" emptyStore
      = (.validationError "Name must be at least 3 letters.", emptyStore) ∧
    register "Asha" "123" emptyStore
      = (.validationError "Card UID must be between 5-16 characters.", emptyStore) ∧
    register "Asha" "ab12345" emptyStore
      = (.registered { name := "Asha", cardUID := "0AB12345" },
         { emptyStore with users := emptyStore.users ++
             [{ name := "Asha", cardUID := "0AB12345" }] }) :=
  ⟨(register_validation "Al" "12345" emptyStore).1 (by decide),
   (register_validation "Asha" "123" emptyStore).2.1 (by decide) (by decide),
   by
    have h := ((register_validation "Asha" "ab12345" emptyStore).2.2
      (by decide) (by decide) (by decide)).2 (by decide)
    simpa using h⟩

/-! ## Claim C2: behaviour depends on the identifier only through its key -/

/-- C2: raw identifiers that normalize to the same key are the same card.
Scans with such identifiers are indistinguishable; two valid registrations
whose trimmed identifiers normalize to the same key are indistinguishable;
and a scan of `a` followed by a scan of `b` toggles one single record
IN then OUT, ending with exactly one record under the shared key. -/
theorem normalization_consistency (a b : String)
    (hab : normalizeUID a = normalizeUID b) :
    (∀ d t st, recordScan a d t st = recordScan b d t st) ∧
    (5 ≤ (trimStr a).length → (trimStr a).length ≤ 16 →
     5 ≤ (trimStr b).length → (trimStr b).length ≤ 16 →
     normalizeUID (trimStr a) = normalizeUID (trimStr b) →
     ∀ n st, register n a st = register n b st) ∧
    (∀ st user d t t1, findUser st (normalizeUID a) = some user →
      findRecord st (normalizeUID a) d = none →
      (recordScan a d t st).1
        = .statusIn { cardUID := normalizeUID a, name := user.name, date := d,
                      inTime := t, outTime := none } ∧
      (recordScan b d t1 (recordScan a d t st).2).1
        = .statusOut { cardUID := normalizeUID a, name := user.name, date := d,
                       inTime := t, outTime := some t1 } ∧
      countKey (recordScan b d t1 (recordScan a d t st).2).2 (normalizeUID a) d = 1) := by
  have hscan : ∀ d t st, recordScan a d t st = recordScan b d t st := by
    intro d t st
    simp only [recordScan, hab]
  refine ⟨hscan, ?_, ?_⟩
  · intro ha1 ha2 hb1 hb2 hkey n st
    by_cases hname : (trimStr n).length < 3
    · simp [register, hname]
    · rw [register, register, if_neg hname, if_neg hname,
          if_neg (by simp; omega), if_neg (by simp; omega), hkey]
  · intro st user d t t1 hu hr
    have hfindnone : st.attendance.find? (keyMatch (normalizeUID a) d) = none := hr
    have hrec : recordScan a d t st
        = (.statusIn { cardUID := normalizeUID a, name := user.name, date := d,
                       inTime := t, outTime := none },
           { st with attendance := st.attendance ++
               [{ cardUID := normalizeUID a, name := user.name, date := d,
                  inTime := t, outTime := none }] }) := by
      simp [recordScan, hu, hr]
    have hu1 : findUser
        { st with attendance := st.attendance ++
            [{ cardUID := normalizeUID a, name := user.name, date := d,
               inTime := t, outTime := none }] } (normalizeUID a) = some user := hu
    have hr1 : findRecord
        { st with attendance := st.attendance ++
            [{ cardUID := normalizeUID a, name := user.name, date := d,
               inTime := t, outTime := none }] } (normalizeUID a) d
        = some { cardUID := normalizeUID a, name := user.name, date := d,
                 inTime := t, outTime := none } := by
      show (st.attendance ++ [_]).find? (keyMatch (normalizeUID a) d) = _
      rw [find?_append_none _ _ _ hfindnone]
      simp [List.find?, keyMatch]
    have h2 : recordScan b d t1
        { st with attendance := st.attendance ++
            [{ cardUID := normalizeUID a, name := user.name, date := d,
               inTime := t, outTime := none }] }
        = (.statusOut { cardUID := normalizeUID a, name := user.name, date := d,
                        inTime := t, outTime := some t1 },
           { st with attendance :=
               (markOut (st.attendance ++
                   [{ cardUID := normalizeUID a, name := user.name, date := d,
                      inTime := t, outTime := none }])
                 (normalizeUID a) d t1) }) := by
      rw [← hscan d t1 _]
      simp [recordScan, hu1, hr1]
    refine ⟨by rw [hrec], ?_, ?_⟩
    · rw [hrec]
      show (recordScan b d t1
        { st with attendance := st.attendance ++
            [{ cardUID := normalizeUID a, name := user.name, date := d,
               inTime := t, outTime := none }] }).1 = _
      rw [h2]
    · rw [hrec]
      show countKey (recordScan b d t1
        { st with attendance := st.attendance ++
            [{ cardUID := normalizeUID a, name := user.name, date := d,
               inTime := t, outTime := none }] }).2 (normalizeUID a) d = 1
      rw [h2]
      show ((markOut
          (st.attendance ++
            [{ cardUID := normalizeUID a, name := user.name, date := d,
               inTime := t, outTime := none }])
          (normalizeUID a) d t1).filter (keyMatch (normalizeUID a) d)).length = 1
      rw [markOut_filter_key_length, List.filter_append]
      have hnil : st.attendance.filter (keyMatch (normalizeUID a) d) = [] :=
        List.filter_eq_nil_iff.mpr (List.find?_eq_none.mp hfindnone)
      rw [hnil]
      simp [keyMatch]

/-- C2 witness: the spec's scenario, `"ab12"` scanned in and `"AB12"`
scanned out resolve to the same key `"0000AB12"`. -/
theorem normalization_consistency_witness :
    recordScan "ab12" "2024-03-01" "09:00:00" demoStore
      = recordScan "AB12" "2024-03-01" "09:00:00" demoStore :=
  (normalization_consistency "ab12" "AB12" (by decide)).1 "2024-03-01" "09:00:00" demoStore

/-! ## Claim C5: the sweep is idempotent -/

/-- C5: running the 23:59 sweep twice in succession for the same date gives
the same store as running it once, and the second run reports zero
modified documents. -/
theorem sweep_idempotent (today : String) (st : Store) :
    sweepAttendance today (sweepAttendance today st).2
      = (0, (sweepAttendance today st).2) := by
  have hfix : ∀ r ∈ st.attendance.map (sweepDoc today),
      (r.date == today && r.outTime == none) = false := by
    intro r hr
    rcases List.mem_map.mp hr with ⟨r0, hr0, rfl⟩
    unfold sweepDoc
    by_cases h : (r0.date == today && r0.outTime == none) = true
    · rw [if_pos h]
      simp
    · rw [if_neg h]
      simpa using h
  have hfilter : (st.attendance.map (sweepDoc today)).filter
      (fun r => r.date == today && r.outTime == none) = [] :=
    List.filter_eq_nil_iff.mpr (fun r hr => by simp [hfix r hr])
  have hmap : (st.attendance.map (sweepDoc today)).map (sweepDoc today)
      = st.attendance.map (sweepDoc today) := by
    apply map_eq_self_of_mem
    intro r hr
    unfold sweepDoc
    rw [if_neg (by simp [hfix r hr])]
  simp [sweepAttendance, hfilter, hmap]

/-! ## Claim C3: at most one DayRecord per (user, date) -/

/-- The attendance collection has pairwise-distinct natural keys. -/
def keysNodup (st : Store) : Prop :=
  (st.attendance.map keyOf).Nodup

theorem register_attendance (n u : String) (st : Store) :
    ((register n u st).2).attendance = st.attendance := by
  simp only [register]
  split
  · rfl
  · split
    · rfl
    · split <;> rfl

theorem recordScan_keys (raw d t : String) (st : Store) :
    ((recordScan raw d t st).2.attendance.map keyOf = st.attendance.map keyOf) ∨
    (findRecord st (normalizeUID raw) d = none ∧
     (recordScan raw d t st).2.attendance.map keyOf
       = st.attendance.map keyOf ++ [(normalizeUID raw, d)]) := by
  cases hu : findUser st (normalizeUID raw) with
  | none => exact Or.inl (by simp [recordScan, hu])
  | some user =>
    cases hr : findRecord st (normalizeUID raw) d with
    | none =>
      refine Or.inr ⟨rfl, ?_⟩
      simp [recordScan, hu, hr, keyOf]
    | some record =>
      cases hout : record.outTime with
      | none =>
        refine Or.inl ?_
        simp only [recordScan, hu, hr, hout]
        exact markOut_map_keyOf _ _ _ _
      | some t0 => exact Or.inl (by simp [recordScan, hu, hr, hout])

theorem keyOf_eq_of_keyMatch (k d : String) (r : Attendance)
    (h : keyMatch k d r = true) : keyOf r = (k, d) := by
  unfold keyMatch at h
  simp only [Bool.and_eq_true, beq_iff_eq] at h
  simp [keyOf, h.1, h.2]

theorem not_mem_keys_of_find?_none (l : List Attendance) (k d : String)
    (h : l.find? (keyMatch k d) = none) : (k, d) ∉ l.map keyOf := by
  intro hmem
  rcases List.mem_map.mp hmem with ⟨r, hr, hkr⟩
  have := List.find?_eq_none.mp h r hr
  apply this
  unfold keyMatch
  unfold keyOf at hkr
  have h1 : r.cardUID = k := congrArg Prod.fst hkr
  have h2 : r.date = d := congrArg Prod.snd hkr
  simp [h1, h2]

theorem applyOp_keysNodup (st : Store) (op : Op) (h : keysNodup st) :
    keysNodup (applyOp st op) := by
  cases op with
  | registerUser n u =>
    unfold keysNodup applyOp
    rw [register_attendance]
    exact h
  | scanCard u d t =>
    unfold keysNodup applyOp
    rcases recordScan_keys u d t st with heq | ⟨hnone, heq⟩
    · rw [heq]; exact h
    · rw [heq, List.nodup_append]
      exact ⟨h, by simp, by
        intro x hx hmem
        simp at hmem
        subst hmem
        exact not_mem_keys_of_find?_none _ _ _ hnone hx⟩
  | sweepRun d =>
    unfold keysNodup applyOp sweepAttendance
    have hcomp : keyOf ∘ sweepDoc d = keyOf := funext (sweepDoc_keyOf d)
    simp only [List.map_map, hcomp]
    exact h

theorem runOps_keysNodup (ops : List Op) : keysNodup (runOps ops) := by
  suffices h : ∀ st, keysNodup st → keysNodup (ops.foldl applyOp st) by
    exact h emptyStore (by simp [keysNodup, emptyStore])
  induction ops with
  | nil => exact fun st h => h
  | cons op rest ih => exact fun st h => ih _ (applyOp_keysNodup st op h)

theorem count_le_one_of_keysNodup (l : List Attendance)
    (h : (l.map keyOf).Nodup) (k d : String) :
    (l.filter (keyMatch k d)).length ≤ 1 := by
  induction l with
  | nil => simp
  | cons r rest ih =>
    rw [List.map_cons, List.nodup_cons] at h
    by_cases hm : keyMatch k d r = true
    · rw [List.filter_cons, if_pos hm]
      have hnil : rest.filter (keyMatch k d) = [] := by
        apply List.filter_eq_nil_iff.mpr
        intro x hx hmx
        exact h.1 ((keyOf_eq_of_keyMatch k d r hm) ▸
          (keyOf_eq_of_keyMatch k d x hmx) ▸ List.mem_map_of_mem keyOf hx)
      rw [hnil]
      simp
    · rw [List.filter_cons, if_neg hm]
      exact ih h.2

/-- C3: after any finite sequence of registrations, scans and sweeps
starting from the empty store, every (user, calendar date) pair owns at
most one attendance record. -/
theorem dayRecord_unique (ops : List Op) (u d : String) :
    countKey (runOps ops) u d ≤ 1 :=
  count_le_one_of_keysNodup _ (runOps_keysNodup ops) u d

/-! ## Claim C7: the summary counts distinct attended days -/

theorem sweepDoc_date (today : String) (r : Attendance) :
    (sweepDoc today r).date = r.date := by
  unfold sweepDoc
  split <;> rfl

theorem sweepDoc_cardUID (today : String) (r : Attendance) :
    (sweepDoc today r).cardUID = r.cardUID := by
  unfold sweepDoc
  split <;> rfl

theorem filter_map_pres {α : Type} (g : α → α) (p : α → Bool) (l : List α)
    (h : ∀ x, p (g x) = p x) :
    (l.map g).filter p = (l.filter p).map g := by
  induction l with
  | nil => rfl
  | cons a l ih =>
    rw [List.map_cons, List.filter_cons, List.filter_cons, h a]
    by_cases hp : p a = true
    · rw [if_pos hp, if_pos hp, List.map_cons, ih]
    · rw [if_neg hp, if_neg hp, ih]

theorem contains_iff_mem {α : Type} [BEq α] [LawfulBEq α] (l : List α) (a : α) :
    l.contains a = true ↔ a ∈ l :=
  List.elem_iff

theorem totalWorkdays_eq_window_count (recs : List Attendance) (uid : String)
    (window : List String) (hw : window.Nodup) :
    totalWorkdays recs uid window
      = (window.filter
          (fun d => recs.any (fun r => r.cardUID == uid && r.date == d))).length := by
  have hL : totalWorkdays recs uid window
      = (((recs.filter (fun r => window.contains r.date)).filter
          (fun r => r.cardUID == uid)).map (fun r => r.date)).toFinset.card := by
    rw [List.card_toFinset]
    rfl
  have hR : (window.filter
        (fun d => recs.any (fun r => r.cardUID == uid && r.date == d))).length
      = (window.filter
          (fun d => recs.any (fun r => r.cardUID == uid && r.date == d))).toFinset.card :=
    (List.toFinset_card_of_nodup (hw.filter _)).symm
  rw [hL, hR]
  congr 1
  ext x
  simp only [List.mem_toFinset, List.mem_map, List.mem_filter, List.any_eq_true,
    Bool.and_eq_true, beq_iff_eq, contains_iff_mem, decide_eq_true_eq]
  constructor
  · rintro ⟨r, ⟨⟨hr, hdate⟩, huid⟩, rfl⟩
    exact ⟨hdate, r, hr, huid, rfl⟩
  · rintro ⟨hx, r, hr, huid, hdate⟩
    exact ⟨r, ⟨⟨hr, hdate ▸ hx⟩, huid⟩, hdate⟩

theorem totalWorkdays_sweep (recs : List Attendance) (uid today : String)
    (window : List String) :
    totalWorkdays (recs.map (sweepDoc today)) uid window
      = totalWorkdays recs uid window := by
  simp only [totalWorkdays]
  rw [filter_map_pres _ _ _ (fun r => by rw [sweepDoc_date]),
      filter_map_pres _ _ _ (fun r => by rw [sweepDoc_cardUID]),
      List.map_map]
  have : (fun r : Attendance => r.date) ∘ sweepDoc today
      = fun r : Attendance => r.date := funext (fun r => sweepDoc_date today r)
  rw [this]

/-- C7: for every user the home summary's `totalWorkdays` over the 6-day
window (today included) equals the number of distinct window dates on which
that user has any attendance record, whatever its open/closed state; in
particular force-closing records by the sweep never changes the count, so a
day closed with `23:59:59` still counts as present. -/
theorem summary_counts_distinct_days (recs : List Attendance) (uid : String)
    (fmt : Nat → String) (hw : (getLastNDates 6 fmt).Nodup) :
    totalWorkdays recs uid (getLastNDates 6 fmt)
      = ((getLastNDates 6 fmt).filter
          (fun d => recs.any (fun r => r.cardUID == uid && r.date == d))).length ∧
    (∀ today st, totalWorkdays ((sweepAttendance today st).2.attendance) uid
        (getLastNDates 6 fmt)
      = totalWorkdays st.attendance uid (getLastNDates 6 fmt)) :=
  ⟨totalWorkdays_eq_window_count recs uid _ hw,
   fun today st => totalWorkdays_sweep st.attendance uid today _⟩

/-- A 6-day window of concrete dates, newest first. -/
def demoWindowFmt (i : Nat) : String :=
  ["2024-03-07", "2024-03-06", "2024-03-05", "2024-03-04",
   "2024-03-03", "2024-03-02"].getD i ""

/-- One record force-closed by the sweep inside the window. -/
def demoSweptRecs : List Attendance :=
  [{ cardUID := "0000AB12", name := "Asha", date := "2024-03-05",
     inTime := "09:00:00", outTime := some "23:59:59" }]

/-- C7 witness: on the concrete window the equality holds and gives 1 for
the user with a swept (`23:59:59`) record in the window. -/
theorem summary_counts_distinct_days_witness :
    totalWorkdays demoSweptRecs "0000AB12" (getLastNDates 6 demoWindowFmt)
      = ((getLastNDates 6 demoWindowFmt).filter
          (fun d => demoSweptRecs.any
            (fun r => r.cardUID == "0000AB12" && r.date == d))).length :=
  (summary_counts_distinct_days demoSweptRecs "0000AB12" demoWindowFmt (by decide)).1

/-! ## Claim C8: checkout times are never cleared and never precede check-in

The repository stores times of day as canonical `HH:mm:ss` strings and the
spec compares them lexicographically; the code-point lexicographic order is
defined here from scratch. -/

/-- Lexicographic (code-point) order on character lists: `a` is at most
`b`. -/
def strLe : List Char → List Char → Bool
  | [], _ => true
  | _ :: _, [] => false
  | a :: as, b :: bs => a.toNat < b.toNat || (a.toNat == b.toNat && strLe as bs)

/-- Lexicographic string comparison on code points. -/
def timeLe (s t : String) : Bool :=
  strLe s.data t.data

/-- Code point of an ASCII digit. -/
def isDigitCode (c : Char) : Bool :=
  48 ≤ c.toNat && c.toNat ≤ 57

/-- Recognizer for canonical `HH:mm:ss` strings as produced by
`moment.format('HH:mm:ss')`: two digit-pairs separated by colons, hours
below 24, minutes and seconds below 60 (code points: 48 is `0`, 50 is `2`,
51 is `3`, 53 is `5`). -/
def validTimeChars : List Char → Bool
  | [h1, h2, c1, m1, m2, c2, s1, s2] =>
    c1 == ':' && c2 == ':' &&
    isDigitCode h1 && isDigitCode h2 && isDigitCode m1 && isDigitCode m2 &&
    isDigitCode s1 && isDigitCode s2 &&
    (h1.toNat < 50 || (h1.toNat == 50 && h2.toNat ≤ 51)) &&
    m1.toNat ≤ 53 && s1.toNat ≤ 53
  | _ => false

/-- A time-of-day string in canonical `HH:mm:ss` form. -/
def validTime (s : String) : Bool :=
  validTimeChars s.data

example : validTime "09:00:00" = true := by decide
example : validTime "23:59:59" = true := by decide
example : validTime "24:00:00" = false := by decide
example : validTime "9:00" = false := by decide

theorem lt_or_eq_and {x c : Nat} {P : Prop} (h : x ≤ c) (hp : P) :
    x < c ∨ (x = c ∧ P) := by
  rcases Nat.lt_or_eq_of_le h with h1 | h1
  · exact Or.inl h1
  · exact Or.inr ⟨h1, hp⟩

theorem strLe_sentinel (cs : List Char) (h : validTimeChars cs = true) :
    strLe cs ("23:59:59".data) = true := by
  have hdata : ("23:59:59".data) = ['2', '3', ':', '5', '9', ':', '5', '9'] := rfl
  rw [hdata]
  rcases cs with _ | ⟨a1, _ | ⟨a2, _ | ⟨a3, _ | ⟨a4, _ | ⟨a5, _ | ⟨a6, _ |
    ⟨a7, _ | ⟨a8, _ | ⟨a9, rest⟩⟩⟩⟩⟩⟩⟩⟩⟩ <;>
    simp only [validTimeChars, isDigitCode, Bool.and_eq_true, Bool.or_eq_true,
      beq_iff_eq, decide_eq_true_eq, Bool.false_eq_true] at h
  have e2 : ('2' : Char).toNat = 50 := rfl
  have e3 : ('3' : Char).toNat = 51 := rfl
  have ec : (':' : Char).toNat = 58 := rfl
  have e5 : ('5' : Char).toNat = 53 := rfl
  have e9 : ('9' : Char).toNat = 57 := rfl
  obtain ⟨⟨⟨⟨⟨⟨⟨⟨⟨⟨hc1, hc2⟩, hd1⟩, hd2⟩, hd3⟩, hd4⟩, hd5⟩, hd6⟩, hhour⟩, hm1⟩, hs1⟩ := h
  have hc1n : a3.toNat = 58 := by rw [hc1, ec]
  have hc2n : a6.toNat = 58 := by rw [hc2, ec]
  simp only [strLe, e2, e3, ec, e5, e9, hc1n, hc2n, Bool.or_eq_true, Bool.and_eq_true,
    decide_eq_true_eq, beq_iff_eq]
  rcases hhour with hlo | ⟨h1, h2⟩
  · exact Or.inl hlo
  · exact Or.inr ⟨h1, lt_or_eq_and h2 (Or.inr ⟨trivial,
      lt_or_eq_and hm1 (lt_or_eq_and hd4.2 (Or.inr ⟨trivial,
        lt_or_eq_and hs1 (lt_or_eq_and hd6.2 trivial)⟩))⟩)⟩

theorem validTime_le_sentinel (s : String) (h : validTime s = true) :
    timeLe s "23:59:59" = true :=
  strLe_sentinel s.data h

/-- Every scan in an operation list carries a canonical `HH:mm:ss` time of
day (what `moment.format('HH:mm:ss')` always produces). -/
def scanTimesValid : List Op → Bool
  | [] => true
  | Op.scanCard _ _ t :: rest => validTime t && scanTimesValid rest
  | _ :: rest => scanTimesValid rest

/-- Scan timestamps are non-decreasing within each calendar date: a scan
later in the list on the same date carries a time at least as large. -/
def scansMonotone : List Op → Bool
  | [] => true
  | Op.scanCard _ d t :: rest =>
      rest.all (fun op => match op with
        | Op.scanCard _ d2 t2 => if d == d2 then timeLe t t2 else true
        | _ => true) && scansMonotone rest
  | _ :: rest => scansMonotone rest

theorem scanTimesValid_tail (op : Op) (rest : List Op)
    (h : scanTimesValid (op :: rest) = true) : scanTimesValid rest = true := by
  cases op with
  | registerUser n u => simpa [scanTimesValid] using h
  | sweepRun d => simpa [scanTimesValid] using h
  | scanCard u d t =>
    simp only [scanTimesValid, Bool.and_eq_true] at h
    exact h.2

theorem scanTimesValid_head (u d t : String) (rest : List Op)
    (h : scanTimesValid (Op.scanCard u d t :: rest) = true) :
    validTime t = true := by
  simp only [scanTimesValid, Bool.and_eq_true] at h
  exact h.1

theorem scansMonotone_tail (op : Op) (rest : List Op)
    (h : scansMonotone (op :: rest) = true) : scansMonotone rest = true := by
  cases op with
  | registerUser n u => simpa [scansMonotone] using h
  | sweepRun d => simpa [scansMonotone] using h
  | scanCard u d t =>
    simp only [scansMonotone, Bool.and_eq_true] at h
    exact h.2

theorem scansMonotone_head (u d t : String) (rest : List Op)
    (h : scansMonotone (Op.scanCard u d t :: rest) = true) :
    ∀ op ∈ rest, ∀ u2 t2, op = Op.scanCard u2 d t2 → timeLe t t2 = true := by
  simp only [scansMonotone, Bool.and_eq_true] at h
  intro op hop u2 t2 he
  subst he
  have hthis := List.all_eq_true.mp h.1 _ hop
  simpa using hthis

/-- Per-record half of the C8 invariant: a set checkout is at least the
check-in, lexicographically. -/
def RecOK (r : Attendance) : Prop :=
  ∀ t, r.outTime = some t → timeLe r.inTime t = true

/-- Trace invariant: every stored record has a canonical check-in time,
satisfies `RecOK`, and, while still open, its check-in is at most the time
of every upcoming same-date scan. -/
def StoreOK (st : Store) (ops : List Op) : Prop :=
  ∀ r ∈ st.attendance,
    validTime r.inTime = true ∧ RecOK r ∧
    (r.outTime = none → ∀ op ∈ ops, ∀ u t2, op = Op.scanCard u r.date t2 →
      timeLe r.inTime t2 = true)

theorem storeOK_step (st : Store) (op : Op) (rest : List Op)
    (hok : StoreOK st (op :: rest))
    (hv : scanTimesValid (op :: rest) = true)
    (hm : scansMonotone (op :: rest) = true) :
    StoreOK (applyOp st op) rest := by
  cases op with
  | registerUser n u =>
    intro r hr
    rw [applyOp, register_attendance] at hr
    obtain ⟨h1, h2, h3⟩ := hok r hr
    exact ⟨h1, h2, fun hnone op2 hop2 =>
      h3 hnone op2 (List.mem_cons_of_mem _ hop2)⟩
  | sweepRun dd =>
    intro r hr
    rw [applyOp] at hr
    rcases List.mem_map.mp hr with ⟨r0, hr0, rfl⟩
    obtain ⟨h1, h2, h3⟩ := hok r0 hr0
    by_cases hcond : (r0.date == dd && r0.outTime == none) = true
    · have hdoc : sweepDoc dd r0 = { r0 with outTime := some "23:59:59" } := by
        rw [sweepDoc, if_pos hcond]
      rw [hdoc]
      refine ⟨h1, ?_, ?_⟩
      · intro t0 ht0
        cases ht0
        exact validTime_le_sentinel _ h1
      · intro hnone
        simp at hnone
    · have hdoc : sweepDoc dd r0 = r0 := by
        rw [sweepDoc, if_neg hcond]
      rw [hdoc]
      exact ⟨h1, h2, fun hnone op2 hop2 =>
        h3 hnone op2 (List.mem_cons_of_mem _ hop2)⟩
  | scanCard u d tm =>
    intro r hr
    rw [applyOp] at hr
    cases hu : findUser st (normalizeUID u) with
    | none =>
      have heq : (recordScan u d tm st).2 = st := by simp [recordScan, hu]
      rw [heq] at hr
      obtain ⟨h1, h2, h3⟩ := hok r hr
      exact ⟨h1, h2, fun hnone op2 hop2 =>
        h3 hnone op2 (List.mem_cons_of_mem _ hop2)⟩
    | some user =>
      cases hrec : findRecord st (normalizeUID u) d with
      | none =>
        have heq : (recordScan u d tm st).2
            = { st with attendance := st.attendance ++
                [{ cardUID := normalizeUID u, name := user.name, date := d,
                   inTime := tm, outTime := none }] } := by
          simp [recordScan, hu, hrec]
        rw [heq] at hr
        rcases List.mem_append.mp hr with hr0 | hr0
        · obtain ⟨h1, h2, h3⟩ := hok r hr0
          exact ⟨h1, h2, fun hnone op2 hop2 =>
            h3 hnone op2 (List.mem_cons_of_mem _ hop2)⟩
        · rcases List.mem_singleton.mp hr0 with rfl
          refine ⟨scanTimesValid_head u d tm rest hv, ?_, ?_⟩
          · intro t0 ht0
            simp at ht0
          · intro hnone op2 hop2 u2 t2 he2
            exact scansMonotone_head u d tm rest hm op2 hop2 u2 t2 he2
      | some rec =>
        cases hout2 : rec.outTime with
        | none =>
          have heq : (recordScan u d tm st).2
              = { st with attendance :=
                  (markOut st.attendance (normalizeUID u) d tm) } := by
            simp [recordScan, hu, hrec, hout2]
          rw [heq] at hr
          rcases mem_markOut_cases st.attendance (normalizeUID u) d tm r hr
            with hr0 | ⟨r0, hfind, rfl⟩
          · obtain ⟨h1, h2, h3⟩ := hok r hr0
            exact ⟨h1, h2, fun hnone op2 hop2 =>
              h3 hnone op2 (List.mem_cons_of_mem _ hop2)⟩
          · have hr0rec : r0 = rec := by
              have : some rec = some r0 := hrec ▸ hfind
              exact (Option.some.inj this).symm
            subst hr0rec
            have hdate : r0.date = d := by
              have hkm := List.find?_some hfind
              unfold keyMatch at hkm
              simp only [Bool.and_eq_true, beq_iff_eq] at hkm
              exact hkm.2
            obtain ⟨h1, h2, h3⟩ := hok r0 (List.mem_of_find?_eq_some hfind)
            refine ⟨h1, ?_, ?_⟩
            · intro t0 ht0
              cases ht0
              exact h3 hout2 _ (List.mem_cons_self _ _) u tm (by rw [hdate])
            · intro hnone
              simp at hnone
        | some t0 =>
          have heq : (recordScan u d tm st).2 = st := by
            simp [recordScan, hu, hrec, hout2]
          rw [heq] at hr
          obtain ⟨h1, h2, h3⟩ := hok r hr
          exact ⟨h1, h2, fun hnone op2 hop2 =>
            h3 hnone op2 (List.mem_cons_of_mem _ hop2)⟩

theorem storeOK_runOps (ops : List Op)
    (hv : scanTimesValid ops = true) (hm : scansMonotone ops = true) :
    StoreOK (runOps ops) [] := by
  suffices h : ∀ st, StoreOK st ops → StoreOK (ops.foldl applyOp st) [] by
    exact h emptyStore (fun r hr => by simp [emptyStore] at hr)
  induction ops with
  | nil => exact fun st h => h
  | cons op rest ih =>
    intro st h
    exact ih (scanTimesValid_tail op rest hv) (scansMonotone_tail op rest hm) _
      (storeOK_step st op rest h hv hm)

theorem outTime_preserved (st : Store) (op : Op) (r : Attendance) (t : String)
    (hr : r ∈ st.attendance) (hout : r.outTime = some t) :
    r ∈ (applyOp st op).attendance := by
  cases op with
  | registerUser n u =>
    rw [applyOp, register_attendance]
    exact hr
  | sweepRun dd =>
    rw [applyOp]
    have hfix : sweepDoc dd r = r := sweepDoc_closed dd r t hout
    exact hfix ▸ List.mem_map_of_mem (sweepDoc dd) hr
  | scanCard u d tm =>
    rw [applyOp]
    cases hu : findUser st (normalizeUID u) with
    | none =>
      have heq : (recordScan u d tm st).2 = st := by simp [recordScan, hu]
      rw [heq]
      exact hr
    | some user =>
      cases hrec : findRecord st (normalizeUID u) d with
      | none =>
        have heq : (recordScan u d tm st).2
            = { st with attendance := st.attendance ++
                [{ cardUID := normalizeUID u, name := user.name, date := d,
                   inTime := tm, outTime := none }] } := by
          simp [recordScan, hu, hrec]
        rw [heq]
        exact List.mem_append_left _ hr
      | some rec =>
        cases hout2 : rec.outTime with
        | none =>
          have heq : (recordScan u d tm st).2
              = { st with attendance :=
                  (markOut st.attendance (normalizeUID u) d tm) } := by
            simp [recordScan, hu, hrec, hout2]
          rw [heq]
          exact mem_markOut_of_closed st.attendance (normalizeUID u) d tm
            r t hr hout rec hrec hout2
        | some t0 =>
          have heq : (recordScan u d tm st).2 = st := by
            simp [recordScan, hu, hrec, hout2]
          rw [heq]
          exact hr

/-- A registration followed by an IN scan, an OUT scan on the same date and
the day-end sweep, used to instantiate C8 on concrete data. -/
def demoOps : List Op :=
  [Op.registerUser "Asha" "ab123",
   Op.scanCard "ab123" "2024-03-01" "09:00:00",
   Op.scanCard "AB123" "2024-03-01" "18:00:00",
   Op.sweepRun "2024-03-01"]

/-- C8: (1) a record whose `outTime` is already set survives every further
operation unchanged (the checkout is never cleared or overwritten); and
(2) over any operation sequence whose scan times are canonical `HH:mm:ss`
strings, non-decreasing within each calendar date, every record's set
checkout is lexicographically at least its check-in. -/
theorem checkout_never_cleared_nor_early :
    (∀ st op r t, r ∈ st.attendance → r.outTime = some t →
      r ∈ (applyOp st op).attendance) ∧
    (∀ ops, scanTimesValid ops = true → scansMonotone ops = true →
      ∀ r ∈ (runOps ops).attendance, ∀ t, r.outTime = some t →
        timeLe r.inTime t = true) :=
  ⟨fun st op r t hr hout => outTime_preserved st op r t hr hout,
   fun ops hv hm r hr t ht => ((storeOK_runOps ops hv hm) r hr).2.1 t ht⟩

/-- C8 witness: on the concrete trace the record ends with check-in
`09:00:00` and checkout `18:00:00`, and the theorem yields the
lexicographic bound. -/
theorem checkout_never_cleared_nor_early_witness :
    timeLe "09:00:00" "18:00:00" = true :=
  checkout_never_cleared_nor_early.2 demoOps (by decide) (by decide)
    { cardUID := "000AB123", name := "Asha", date := "2024-03-01",
      inTime := "09:00:00", outTime := some "18:00:00" }
    (by decide) "18:00:00" rfl

end SmartAttendance
